import Mathlib

/-!
Verification development for the CartPole repository (src/app/page.tsx).

The file shallowly embeds the algorithmic core of the page — the physics
integrator `stepCartPole`, the policy network forward pass `forwardNetwork`,
the action sampler `sampleActionIndex`, the REINFORCE trainer
`trainOnEpisode`, and the episode-metrics transitions — and proves the
specification's claims about them.

Numbers: JavaScript numbers are modelled by real numbers, idealizing
floating-point rounding.  For the one claim that is specifically about
IEEE special values (non-finite gradients), a second scalar type `FV`
models a JS number as either an exact rational or NaN, with
NaN-propagating arithmetic, and the trainer is re-embedded over it.

Array indexing: the source indexes arrays that are constructed with the
matching lengths; out-of-range JS indexing would yield `undefined` (and
NaN arithmetic).  The real-valued embedding uses `List.getD` with
default 0, which agrees with the source on all well-formed inputs; the
`FV` embedding uses default `FV.nan`, mirroring JS `undefined` arithmetic.
-/

namespace CartPole

noncomputable section

/-- Source constant `gravity = 9.8`. -/
def gravity : ℝ := 9.8

/-- Source constant `massCart = 1`. -/
def massCart : ℝ := 1

/-- Source constant `massPole = 0.1`. -/
def massPole : ℝ := 0.1

/-- Source constant `totalMass = massCart + massPole`. -/
def totalMass : ℝ := massCart + massPole

/-- Source constant `length = 0.5` (half-pole length). -/
def length : ℝ := 0.5

/-- Source constant `poleMassLength = massPole * length`. -/
def poleMassLength : ℝ := massPole * length

/-- Source constant `forceMag = 10`. -/
def forceMag : ℝ := 10

/-- Source constant `tau = 0.02` (seconds between state updates). -/
def tau : ℝ := 0.02

/-- Source constant `trackLimit = 2.4`. -/
def trackLimit : ℝ := 2.4

/-- Source constant `angleLimit = (12 * Math.PI) / 180`. -/
def angleLimit : ℝ := 12 * Real.pi / 180

/-- Source `networkConfig.inputSize`. -/
def inputSize : ℕ := 4

/-- Source `networkConfig.hiddenSize`. -/
def hiddenSize : ℕ := 8

/-- Source `networkConfig.outputSize`. -/
def outputSize : ℕ := 2

/-- Source constant `learningRate = 0.02`. -/
def learningRate : ℝ := 0.02

/-- Source constant `discountFactor = 0.99`. -/
def discountFactor : ℝ := 0.99

/-- Source type `CartPoleState`. -/
structure CartPoleState where
  x : ℝ
  xDot : ℝ
  theta : ℝ
  thetaDot : ℝ

/-- Source type `NetworkParams`: flattened weight matrices and bias vectors. -/
structure NetworkParams where
  W1 : List ℝ
  b1 : List ℝ
  W2 : List ℝ
  b2 : List ℝ

/-- Source type `PolicyStep`: one recorded timestep of a trajectory. -/
structure PolicyStep where
  state : List ℝ
  hidden : List ℝ
  probs : List ℝ
  actionIndex : ℕ
  reward : ℝ

/-- Source `stateToVector`. -/
def stateToVector (s : CartPoleState) : List ℝ :=
  [s.x, s.xDot, s.theta, s.thetaDot]

/-- Result of `forwardNetwork` (the source returns `{ hidden, probs }`). -/
structure ForwardResult where
  hidden : List ℝ
  probs : List ℝ

/-- Hidden layer of `forwardNetwork`: unit `i` is
`tanh(b1[i] + Σ_j W1[i*inputSize+j] * input[j])`. -/
def hiddenLayer (params : NetworkParams) (inputVector : List ℝ) : List ℝ :=
  (List.range hiddenSize).map fun i =>
    Real.tanh (params.b1.getD i 0 +
      ∑ j ∈ Finset.range inputSize, params.W1.getD (i * inputSize + j) 0 * inputVector.getD j 0)

/-- Output logits of `forwardNetwork`: logit `o` is
`b2[o] + Σ_h W2[o*hiddenSize+h] * hidden[h]`. -/
def logitsOf (params : NetworkParams) (hidden : List ℝ) : List ℝ :=
  (List.range outputSize).map fun o =>
    params.b2.getD o 0 +
      ∑ h ∈ Finset.range hiddenSize, params.W2.getD (o * hiddenSize + h) 0 * hidden.getD h 0

/-- `Math.max(...logits)` for a nonempty argument list (the source always
passes the two-element logit list). -/
def maxLogit (logits : List ℝ) : ℝ :=
  match logits with
  | [] => 0
  | l :: ls => ls.foldl max l

/-- The softmax computation at the end of `forwardNetwork`: exponentials of
the max-subtracted logits (`exps`), each divided by their sum (the source's
`denom`, accumulated while building `exps`). -/
def softmaxOf (logits : List ℝ) : List ℝ :=
  (logits.map fun logit => Real.exp (logit - maxLogit logits)).map fun value =>
    value / (logits.map fun logit => Real.exp (logit - maxLogit logits)).sum

/-- Source `forwardNetwork`: hidden activations, then logits, then the
max-subtracted softmax over the logits. -/
def forwardNetwork (params : NetworkParams) (inputVector : List ℝ) : ForwardResult :=
  ⟨hiddenLayer params inputVector, softmaxOf (logitsOf params (hiddenLayer params inputVector))⟩

/-- Loop of `sampleActionIndex`: walk the distribution accumulating mass,
return the current index as soon as `r < cumulative`; if the list is
exhausted return `lastIdx` (the source's `probabilities.length - 1`). -/
def sampleGo (r : ℝ) (lastIdx : ℕ) : List ℝ → ℝ → ℕ → ℕ
  | [], _, _ => lastIdx
  | p :: rest, cumulative, i =>
    if r < cumulative + p then i else sampleGo r lastIdx rest (cumulative + p) (i + 1)

/-- Source `sampleActionIndex`, with the `Math.random()` draw `r` made an
explicit argument. -/
def sampleActionIndex (probabilities : List ℝ) (r : ℝ) : ℕ :=
  sampleGo r (probabilities.length - 1) probabilities 0 0

/-- The running cumulative probability mass after consuming `m` entries:
the sum of the first `m` elements. -/
def cumsum (l : List ℝ) (m : ℕ) : ℝ := (l.take m).sum

/-- The backward discounted-return loop of `trainOnEpisode`:
`discounted = reward[t] + discountFactor * discounted`, starting from 0 past
the end of the trajectory; `returns[t]` is the value after processing `t`. -/
def computeReturns : List ℝ → List ℝ
  | [] => []
  | r :: rest =>
    let tailReturns := computeReturns rest
    (r + discountFactor * tailReturns.headD 0) :: tailReturns

/-- Output-layer error signal of `trainOnEpisode` for one step:
`delta2[o] = (indicator(o == actionIndex) - probs[o]) * advantage`. -/
def delta2Of (step : PolicyStep) (advantage : ℝ) : List ℝ :=
  (List.range outputSize).map fun o =>
    ((if step.actionIndex = o then (1 : ℝ) else 0) - step.probs.getD o 0) * advantage

/-- Hidden-layer error signal of `trainOnEpisode` for one step:
`delta1[h] = (1 - hidden[h]^2) * Σ_o W2[o*hiddenSize+h] * delta2[o]`. -/
def delta1Of (params : NetworkParams) (step : PolicyStep) (delta2 : List ℝ) : List ℝ :=
  (List.range hiddenSize).map fun h =>
    (1 - step.hidden.getD h 0 * step.hidden.getD h 0) *
      ∑ o ∈ Finset.range outputSize, params.W2.getD (o * hiddenSize + h) 0 * delta2.getD o 0

/-- Flattened outer product with row-major layout `d[idx / cols] * v[idx % cols]`,
matching the source's `grad[row * cols + col] += d[row] * v[col]` accumulation. -/
def outerFlat (rows cols : ℕ) (d v : List ℝ) : List ℝ :=
  (List.range (rows * cols)).map fun idx => d.getD (idx / cols) 0 * v.getD (idx % cols) 0

/-- Elementwise sum of two gradient vectors. -/
def addV (a b : List ℝ) : List ℝ := List.zipWith (· + ·) a b

/-- The four gradient accumulators of `trainOnEpisode`. -/
structure Grads where
  gradW1 : List ℝ
  gradb1 : List ℝ
  gradW2 : List ℝ
  gradb2 : List ℝ

/-- The per-step gradient contributions accumulated by `trainOnEpisode`'s
main loop for one trajectory step with its return (`advantage`). -/
def stepGrads (params : NetworkParams) (step : PolicyStep) (advantage : ℝ) : Grads :=
  let d2 := delta2Of step advantage
  let d1 := delta1Of params step d2
  ⟨outerFlat hiddenSize inputSize d1 step.state, d1,
   outerFlat outputSize hiddenSize d2 step.hidden, d2⟩

/-- The zero-initialized gradient accumulators of `trainOnEpisode`. -/
def zeroGrads : Grads :=
  ⟨List.replicate (hiddenSize * inputSize) 0, List.replicate hiddenSize 0,
   List.replicate (outputSize * hiddenSize) 0, List.replicate outputSize 0⟩

/-- Gradient accumulation over the whole trajectory (the `for t` loop of
`trainOnEpisode`), pairing each step with its discounted return. -/
def accumGrads (params : NetworkParams) (trajectory : List PolicyStep) : Grads :=
  (trajectory.zip (computeReturns (trajectory.map PolicyStep.reward))).foldl
    (fun acc tr =>
      let g := stepGrads params tr.1 tr.2
      ⟨addV acc.gradW1 g.gradW1, addV acc.gradb1 g.gradb1,
       addV acc.gradW2 g.gradW2, addV acc.gradb2 g.gradb2⟩)
    zeroGrads

/-- Source `trainOnEpisode`: empty trajectory is a no-op; otherwise
accumulate gradients, scale by `learningRate / Math.max(1, trajectory.length)`,
and add the scaled gradients onto the parameters. -/
def trainOnEpisode (params : NetworkParams) (trajectory : List PolicyStep) : NetworkParams :=
  match trajectory with
  | [] => params
  | _ :: _ =>
    let g := accumGrads params trajectory
    let scale := learningRate / ((max 1 trajectory.length : ℕ) : ℝ)
    ⟨(List.range params.W1.length).map fun i => params.W1.getD i 0 + scale * g.gradW1.getD i 0,
     (List.range params.b1.length).map fun i => params.b1.getD i 0 + scale * g.gradb1.getD i 0,
     (List.range params.W2.length).map fun i => params.W2.getD i 0 + scale * g.gradW2.getD i 0,
     (List.range params.b2.length).map fun i => params.b2.getD i 0 + scale * g.gradb2.getD i 0⟩

/-- Source local `temp` of `stepCartPole`:
`(force + poleMassLength * thetaDot^2 * sin theta) / totalMass` with
`force = action * forceMag`. -/
def temp (state : CartPoleState) (action : ℝ) : ℝ :=
  (action * forceMag + poleMassLength * state.thetaDot * state.thetaDot * Real.sin state.theta) /
    totalMass

/-- The denominator of the angular acceleration in `stepCartPole`:
`length * (4/3 - massPole * cos^2 theta / totalMass)`. -/
def thetaAccDenom (theta : ℝ) : ℝ :=
  length * (4 / 3 - massPole * Real.cos theta * Real.cos theta / totalMass)

/-- Source local `thetaAcc` of `stepCartPole`. -/
def thetaAcc (state : CartPoleState) (action : ℝ) : ℝ :=
  (gravity * Real.sin state.theta - Real.cos state.theta * temp state action) /
    thetaAccDenom state.theta

/-- Source local `xAcc` of `stepCartPole`. -/
def xAcc (state : CartPoleState) (action : ℝ) : ℝ :=
  temp state action - poleMassLength * thetaAcc state action * Real.cos state.theta / totalMass

/-- Result of `stepCartPole` (the source returns `{ nextState, done }`);
the boolean `done` is embedded as a proposition. -/
structure StepResult where
  nextState : CartPoleState
  done : Prop

/-- Source `stepCartPole`: one explicit-Euler step of the cart-pole dynamics
followed by the termination test on the *new* state. -/
def stepCartPole (state : CartPoleState) (action : ℝ) : StepResult :=
  let nextState : CartPoleState :=
    ⟨state.x + tau * state.xDot,
     state.xDot + tau * xAcc state action,
     state.theta + tau * state.thetaDot,
     state.thetaDot + tau * thetaAcc state action⟩
  ⟨nextState, trackLimit < |nextState.x| ∨ angleLimit < |nextState.theta|⟩

/-- Source type `EpisodeMetrics`.  All five fields only ever hold
non-negative integers in the source (increments of 1, `max`, and resets
to 0), so they are embedded as naturals. -/
structure EpisodeMetrics where
  steps : ℕ
  totalReward : ℕ
  episodes : ℕ
  best : ℕ
  last : ℕ

/-- The `setMetrics` update of the non-terminal branch of the loop. -/
def metricsOnSurvive (prev : EpisodeMetrics) : EpisodeMetrics :=
  ⟨prev.steps + 1, prev.totalReward + 1, prev.episodes, prev.best, prev.last⟩

/-- The `setMetrics` update of the terminal branch of the loop:
`finishedSteps = prev.steps + 1` and the episode counters are rolled over. -/
def metricsOnTerminal (prev : EpisodeMetrics) : EpisodeMetrics :=
  ⟨0, 0, prev.episodes + 1, max prev.best (prev.steps + 1), prev.steps + 1⟩

/-- The `setMetrics` update of `handleReset`. -/
def metricsOnReset (prev : EpisodeMetrics) : EpisodeMetrics :=
  ⟨0, 0, prev.episodes, prev.best, prev.last⟩

/-- The three events that update the metrics state in the source. -/
inductive MetricsEvent
  | survive
  | terminal
  | reset

/-- Dispatch of a metrics event to the corresponding source update. -/
def applyMetricsEvent (m : EpisodeMetrics) : MetricsEvent → EpisodeMetrics
  | .survive => metricsOnSurvive m
  | .terminal => metricsOnTerminal m
  | .reset => metricsOnReset m

/-- The initial metrics value `{steps: 0, totalReward: 0, episodes: 0, best: 0, last: 0}`. -/
def initialMetrics : EpisodeMetrics := ⟨0, 0, 0, 0, 0⟩

/-- A reachable metrics state: the fold of a sequence of events from the
initial metrics. -/
def runMetrics (events : List MetricsEvent) : EpisodeMetrics :=
  events.foldl applyMetricsEvent initialMetrics

/-- Second definition for the refinement claim about the integrator, following
the spec's wording (section 4.1): the shared intermediate term
`(force + poleMass * length * thetaDot^2 * sin theta) / totalMass`, with the
constants written as the literal values the spec states. -/
def specSharedTerm (s : CartPoleState) (action : ℝ) : ℝ :=
  (action * 10 + 0.1 * 0.5 * s.thetaDot ^ 2 * Real.sin s.theta) / 1.1

/-- Second definition for the refinement claim about the integrator, following
the spec's wording (section 4.1): the standard cart-pole angular acceleration
computed from the shared intermediate term, constants written as literals. -/
def specThetaAcc (s : CartPoleState) (action : ℝ) : ℝ :=
  (9.8 * Real.sin s.theta - Real.cos s.theta * specSharedTerm s action) /
    (0.5 * (4 / 3 - 0.1 * Real.cos s.theta ^ 2 / 1.1))

/-- Second definition for the refinement claim about the integrator, following
the spec's wording (section 4.1): the standard cart-pole linear acceleration
coupled to the angular one, constants written as literals. -/
def specXAcc (s : CartPoleState) (action : ℝ) : ℝ :=
  specSharedTerm s action - 0.1 * 0.5 * specThetaAcc s action * Real.cos s.theta / 1.1

/-- Concrete zero parameter set of the source's shapes (8x4, 8, 2x8, 2),
used for the constructed test scenarios. -/
def pZero : NetworkParams :=
  ⟨List.replicate 32 0, List.replicate 8 0, List.replicate 16 0, List.replicate 2 0⟩

/-- Concrete zero observation vector. -/
def obsZero : List ℝ := [0, 0, 0, 0]

/-- Concrete one-step trajectory step: the observation `obsZero`, the hidden
activations and probabilities actually produced by `forwardNetwork pZero
obsZero`, chosen action 0, and reward 1. -/
def stepZero : PolicyStep :=
  ⟨obsZero, List.replicate 8 0, [1 / 2, 1 / 2], 0, 1⟩

/-- Concrete golden-test state `{x: 0, xDot: 0, theta: 0.05, thetaDot: 0}`. -/
def sGolden : CartPoleState := ⟨0, 0, 0.05, 0⟩

end

/-- A JavaScript number as the source manipulates it in `trainOnEpisode`:
either an exact rational (idealizing rounding) or NaN.  Infinities are not
modelled; NaN is enough for the claims about non-finite propagation. -/
inductive FV
  | fin : ℚ → FV
  | nan : FV
deriving DecidableEq

namespace FV

/-- IEEE-style addition on `FV`: NaN propagates, finite values add exactly. -/
def add : FV → FV → FV
  | fin a, fin b => fin (a + b)
  | _, _ => nan

/-- IEEE-style subtraction on `FV`. -/
def sub : FV → FV → FV
  | fin a, fin b => fin (a - b)
  | _, _ => nan

/-- IEEE-style multiplication on `FV`: NaN propagates. -/
def mul : FV → FV → FV
  | fin a, fin b => fin (a * b)
  | _, _ => nan

instance : Add FV := ⟨add⟩
instance : Sub FV := ⟨sub⟩
instance : Mul FV := ⟨mul⟩

/-- `Number.isFinite`: true exactly on finite values. -/
def isFinite : FV → Bool
  | fin _ => true
  | nan => false

end FV

/-- `discountFactor` as a rational, for the `FV` re-embedding. -/
def discountFactorQ : ℚ := 0.99

/-- `learningRate` as a rational, for the `FV` re-embedding. -/
def learningRateQ : ℚ := 0.02

/-- `NetworkParams` over `FV` scalars. -/
structure NetworkParamsFV where
  W1 : List FV
  b1 : List FV
  W2 : List FV
  b2 : List FV
deriving DecidableEq

/-- `PolicyStep` over `FV` scalars. -/
structure PolicyStepFV where
  state : List FV
  hidden : List FV
  probs : List FV
  actionIndex : ℕ
  reward : FV
deriving DecidableEq

/-- The backward discounted-return loop of `trainOnEpisode` over `FV`. -/
def computeReturnsFV : List FV → List FV
  | [] => []
  | r :: rest =>
    let tailReturns := computeReturnsFV rest
    (r + FV.fin discountFactorQ * tailReturns.headD (FV.fin 0)) :: tailReturns

/-- `delta2` of `trainOnEpisode` over `FV`; out-of-range indexing defaults to
NaN, mirroring JS `undefined` arithmetic. -/
def delta2OfFV (step : PolicyStepFV) (advantage : FV) : List FV :=
  (List.range outputSize).map fun o =>
    ((if step.actionIndex = o then FV.fin 1 else FV.fin 0) - step.probs.getD o FV.nan) * advantage

/-- `delta1` of `trainOnEpisode` over `FV`. -/
def delta1OfFV (params : NetworkParamsFV) (step : PolicyStepFV) (delta2 : List FV) : List FV :=
  (List.range hiddenSize).map fun h =>
    (FV.fin 1 - step.hidden.getD h FV.nan * step.hidden.getD h FV.nan) *
      ((List.range outputSize).map fun o =>
        params.W2.getD (o * hiddenSize + h) FV.nan * delta2.getD o FV.nan).foldl (· + ·) (FV.fin 0)

/-- Flattened outer product over `FV`, row-major as in the source. -/
def outerFlatFV (rows cols : ℕ) (d v : List FV) : List FV :=
  (List.range (rows * cols)).map fun idx =>
    d.getD (idx / cols) FV.nan * v.getD (idx % cols) FV.nan

/-- Elementwise sum of two `FV` gradient vectors. -/
def addVFV (a b : List FV) : List FV := List.zipWith (· + ·) a b

/-- The four gradient accumulators of `trainOnEpisode` over `FV`. -/
structure GradsFV where
  gradW1 : List FV
  gradb1 : List FV
  gradW2 : List FV
  gradb2 : List FV
deriving DecidableEq

/-- Per-step gradient contributions of `trainOnEpisode` over `FV`. -/
def stepGradsFV (params : NetworkParamsFV) (step : PolicyStepFV) (advantage : FV) : GradsFV :=
  let d2 := delta2OfFV step advantage
  let d1 := delta1OfFV params step d2
  ⟨outerFlatFV hiddenSize inputSize d1 step.state, d1,
   outerFlatFV outputSize hiddenSize d2 step.hidden, d2⟩

/-- Zero-initialized `FV` gradient accumulators. -/
def zeroGradsFV : GradsFV :=
  ⟨List.replicate (hiddenSize * inputSize) (FV.fin 0), List.replicate hiddenSize (FV.fin 0),
   List.replicate (outputSize * hiddenSize) (FV.fin 0), List.replicate outputSize (FV.fin 0)⟩

/-- Gradient accumulation over the trajectory, over `FV`. -/
def accumGradsFV (params : NetworkParamsFV) (trajectory : List PolicyStepFV) : GradsFV :=
  (trajectory.zip (computeReturnsFV (trajectory.map PolicyStepFV.reward))).foldl
    (fun acc tr =>
      let g := stepGradsFV params tr.1 tr.2
      ⟨addVFV acc.gradW1 g.gradW1, addVFV acc.gradb1 g.gradb1,
       addVFV acc.gradW2 g.gradW2, addVFV acc.gradb2 g.gradb2⟩)
    zeroGradsFV

/-- Source `trainOnEpisode` re-embedded over `FV`: it applies the scaled
gradients unconditionally — the source contains no finiteness check. -/
def trainOnEpisodeFV (params : NetworkParamsFV) (trajectory : List PolicyStepFV) :
    NetworkParamsFV :=
  match trajectory with
  | [] => params
  | _ :: _ =>
    let g := accumGradsFV params trajectory
    let scale : FV := FV.fin (learningRateQ / ((max 1 trajectory.length : ℕ) : ℚ))
    ⟨(List.range params.W1.length).map fun i =>
        params.W1.getD i FV.nan + scale * g.gradW1.getD i FV.nan,
     (List.range params.b1.length).map fun i =>
        params.b1.getD i FV.nan + scale * g.gradb1.getD i FV.nan,
     (List.range params.W2.length).map fun i =>
        params.W2.getD i FV.nan + scale * g.gradW2.getD i FV.nan,
     (List.range params.b2.length).map fun i =>
        params.b2.getD i FV.nan + scale * g.gradb2.getD i FV.nan⟩

/-- Concrete zero `FV` parameter set of the source's shapes. -/
def pZeroFV : NetworkParamsFV :=
  ⟨List.replicate 32 (FV.fin 0), List.replicate 8 (FV.fin 0),
   List.replicate 16 (FV.fin 0), List.replicate 2 (FV.fin 0)⟩

/-- Concrete one-step trajectory step whose reward is NaN: consistent zero
observation and activations, probabilities one half each, chosen action 0. -/
def stepNaN : PolicyStepFV :=
  ⟨List.replicate 4 (FV.fin 0), List.replicate 8 (FV.fin 0),
   [FV.fin (1 / 2), FV.fin (1 / 2)], 0, FV.nan⟩

/-- Reading an in-range index of a list built by mapping over `List.range`. -/
theorem getD_range_map {α : Type} (f : ℕ → α) (d : α) {n i : ℕ} (h : i < n) :
    ((List.range n).map f).getD i d = f i := by
  rw [List.getD_eq_getElem _ _ (by simpa using h)]
  simp

/-- Multiplying by NaN yields NaN. -/
theorem FV.mul_nan (a : FV) : a * FV.nan = FV.nan := by cases a <;> rfl

/-- Adding NaN yields NaN. -/
theorem FV.add_nan (a : FV) : a + FV.nan = FV.nan := by cases a <;> rfl

/-- The non-finite `FV` values are exactly NaN. -/
theorem FV.not_isFinite_iff (a : FV) : a.isFinite = false ↔ a = FV.nan := by
  cases a <;> simp [FV.isFinite]

/-- The head-with-default of a list is its entry at index 0. -/
theorem headD_eq_getD {α : Type} (l : List α) (d : α) : l.headD d = l.getD 0 d := by
  cases l <;> rfl

/-- The returns sequence has the same length as the rewards sequence. -/
theorem computeReturns_length (l : List ℝ) : (computeReturns l).length = l.length := by
  induction l with
  | nil => rfl
  | cons r rest ih => simp [computeReturns, ih]

/-- The backward recursion satisfied by every in-range entry of the returns
sequence (entries past the end read as 0 via the default). -/
theorem computeReturns_getD (l : List ℝ) (t : ℕ) (h : t < l.length) :
    (computeReturns l).getD t 0 =
      l.getD t 0 + discountFactor * (computeReturns l).getD (t + 1) 0 := by
  induction l generalizing t with
  | nil => simp at h
  | cons r rest ih =>
    cases t with
    | zero =>
      simp only [computeReturns, List.getD_cons_zero, List.getD_cons_succ]
      rw [headD_eq_getD]
    | succ t =>
      simp only [computeReturns, List.getD_cons_succ]
      exact ih t (by simpa using h)

/-- Claim C2: for every non-empty trajectory, the returns sequence computed by
`trainOnEpisode` (its backward loop, embedded as `computeReturns` over the
trajectory's rewards) has the same length as the trajectory, its last entry
equals the last reward, and every earlier entry equals that step's reward plus
`discountFactor` (0.99) times the next entry; for rewards `[1, 1, 1]` the
returns are `[1 + 0.99 + 0.99^2, 1 + 0.99, 1]`, hence within 1e-9 of those
values. -/
theorem trainOnEpisode_returns_spec (rewards : List ℝ) (hne : rewards ≠ []) :
    (computeReturns rewards).length = rewards.length ∧
    (computeReturns rewards).getD (rewards.length - 1) 0 =
      rewards.getD (rewards.length - 1) 0 ∧
    (∀ t, t + 1 < rewards.length →
      (computeReturns rewards).getD t 0 =
        rewards.getD t 0 + discountFactor * (computeReturns rewards).getD (t + 1) 0) ∧
    computeReturns [1, 1, 1] = [1 + 0.99 + 0.99 ^ 2, 1 + 0.99, 1] ∧
    |(computeReturns [1, 1, 1]).getD 0 0 - (1 + 0.99 + 0.99 ^ 2)| ≤ 1e-9 ∧
    |(computeReturns [1, 1, 1]).getD 1 0 - (1 + 0.99)| ≤ 1e-9 ∧
    |(computeReturns [1, 1, 1]).getD 2 0 - 1| ≤ 1e-9 := by
  have hn : 0 < rewards.length := List.length_pos.mpr hne
  have hconc : computeReturns [1, 1, 1] = [1 + 0.99 + 0.99 ^ 2, 1 + 0.99, 1] := by
    norm_num [computeReturns, discountFactor]
  refine ⟨computeReturns_length rewards, ?_,
    fun t ht => computeReturns_getD rewards t (by omega),
    hconc, by rw [hconc]; norm_num, by rw [hconc]; norm_num, by rw [hconc]; norm_num⟩
  have hlast := computeReturns_getD rewards (rewards.length - 1) (by omega)
  have hout : (computeReturns rewards).getD (rewards.length - 1 + 1) 0 = 0 :=
    List.getD_eq_default _ _ (by rw [computeReturns_length]; omega)
  rw [hlast, hout, mul_zero, add_zero]

/-- Witness for claim C2 at the concrete reward list `[1, 1, 1]`. -/
theorem trainOnEpisode_returns_spec_witness :
    ([1, 1, 1] : List ℝ) ≠ [] ∧
    (computeReturns [1, 1, 1]).getD 2 0 = ([1, 1, 1] : List ℝ).getD 2 0 :=
  ⟨by simp, (trainOnEpisode_returns_spec [1, 1, 1] (by simp)).2.1⟩

/-- The two logits of the output layer, written out. -/
theorem logitsOf_pair (P : NetworkParams) (H : List ℝ) :
    logitsOf P H =
      [P.b2.getD 0 0 + ∑ h ∈ Finset.range hiddenSize, P.W2.getD (0 * hiddenSize + h) 0 * H.getD h 0,
       P.b2.getD 1 0 + ∑ h ∈ Finset.range hiddenSize, P.W2.getD (1 * hiddenSize + h) 0 * H.getD h 0] :=
  rfl

/-- `Math.max` of a two-element list. -/
theorem maxLogit_pair (a b : ℝ) : maxLogit [a, b] = max a b := rfl

/-- The softmax of two logits, written out. -/
theorem softmaxOf_pair (a b : ℝ) :
    softmaxOf [a, b] =
      [Real.exp (a - max a b) / (Real.exp (a - max a b) + Real.exp (b - max a b)),
       Real.exp (b - max a b) / (Real.exp (a - max a b) + Real.exp (b - max a b))] := by
  simp [softmaxOf, maxLogit_pair]

/-- The probabilities returned by `forwardNetwork` are a two-entry softmax. -/
theorem forwardNetwork_probs_pair (params : NetworkParams) (obs : List ℝ) :
    ∃ a b : ℝ, (forwardNetwork params obs).probs =
      [Real.exp a / (Real.exp a + Real.exp b), Real.exp b / (Real.exp a + Real.exp b)] := by
  obtain ⟨l0, l1, hL⟩ : ∃ l0 l1, logitsOf params (hiddenLayer params obs) = [l0, l1] :=
    ⟨_, _, logitsOf_pair params _⟩
  refine ⟨l0 - max l0 l1, l1 - max l0 l1, ?_⟩
  show softmaxOf (logitsOf params (hiddenLayer params obs)) = _
  rw [hL, softmaxOf_pair]

/-- Claim C5: for every parameter set and observation vector, the probability
vector returned by `forwardNetwork` (the max-subtracted softmax of the two
logits) has all entries non-negative and sums to 1 within 1e-6 (its two
entries in fact sum to exactly 1). -/
theorem forwardNetwork_probs_distribution (params : NetworkParams) (obs : List ℝ) :
    (∀ p ∈ (forwardNetwork params obs).probs, 0 ≤ p) ∧
    |(forwardNetwork params obs).probs.sum - 1| ≤ 1e-6 ∧
    (forwardNetwork params obs).probs.length = 2 := by
  obtain ⟨a, b, hp⟩ := forwardNetwork_probs_pair params obs
  have hd : 0 < Real.exp a + Real.exp b := add_pos (Real.exp_pos a) (Real.exp_pos b)
  refine ⟨?_, ?_, by rw [hp]; rfl⟩
  · intro p hmem
    rw [hp] at hmem
    simp only [List.mem_cons, List.not_mem_nil, or_false] at hmem
    rcases hmem with h | h <;>
      · rw [h]
        exact div_nonneg (le_of_lt (Real.exp_pos _)) (le_of_lt hd)
  · rw [hp]
    simp only [List.sum_cons, List.sum_nil, add_zero]
    rw [div_add_div_same, div_self (ne_of_gt hd)]
    norm_num

/-- Loop invariant of `sampleGo`: either the list is exhausted without the
draw ever being exceeded and the fallback index is returned, or the first
position whose cumulative mass exceeds the draw is returned. -/
theorem sampleGo_spec (r : ℝ) (lastIdx : ℕ) :
    ∀ (l : List ℝ) (cum : ℝ) (i : ℕ),
      (sampleGo r lastIdx l cum i = lastIdx ∧
        ∀ j < l.length, ¬ r < cum + cumsum l (j + 1)) ∨
      (∃ k < l.length, sampleGo r lastIdx l cum i = i + k ∧
        r < cum + cumsum l (k + 1) ∧ ∀ j < k, ¬ r < cum + cumsum l (j + 1)) := by
  intro l
  induction l with
  | nil =>
    intro cum i
    left
    exact ⟨rfl, by simp⟩
  | cons p rest ih =>
    intro cum i
    by_cases h : r < cum + p
    · right
      refine ⟨0, by simp, by simp [sampleGo, h], ?_, by simp⟩
      simpa [cumsum] using h
    · rcases ih (cum + p) (i + 1) with ⟨heq, hall⟩ | ⟨k, hk, heq, hlt, hmin⟩
      · left
        refine ⟨by simp [sampleGo, h, heq], ?_⟩
        intro j hj
        cases j with
        | zero => simpa [cumsum] using h
        | succ j =>
          have hj' := hall j (by simpa using hj)
          simpa [cumsum, add_assoc] using hj'
      · right
        refine ⟨k + 1, by simpa using hk, ?_, ?_, ?_⟩
        · rw [show sampleGo r lastIdx (p :: rest) cum i =
            sampleGo r lastIdx rest (cum + p) (i + 1) from by simp [sampleGo, h], heq]
          omega
        · simpa [cumsum, add_assoc] using hlt
        · intro j hj
          cases j with
          | zero => simpa [cumsum] using h
          | succ j =>
            have hj' := hmin j (by omega)
            simpa [cumsum, add_assoc] using hj'

/-- Claim C8: for every non-empty probability vector and draw in [0, 1),
`sampleActionIndex` returns the first index at which the running cumulative
mass exceeds the draw, or the last valid index (length - 1) if the cumulative
sum falls short of the draw for every entry; in either case the result is a
valid index into the vector. -/
theorem sampleActionIndex_spec (probs : List ℝ) (r : ℝ)
    (hne : probs ≠ []) (h0 : 0 ≤ r) (h1 : r < 1) :
    sampleActionIndex probs r < probs.length ∧
    ((r < cumsum probs (sampleActionIndex probs r + 1) ∧
      ∀ j < sampleActionIndex probs r, ¬ r < cumsum probs (j + 1)) ∨
     ((∀ j < probs.length, ¬ r < cumsum probs (j + 1)) ∧
      sampleActionIndex probs r = probs.length - 1)) := by
  have hn : 0 < probs.length := List.length_pos.mpr hne
  rcases sampleGo_spec r (probs.length - 1) probs 0 0 with ⟨heq, hall⟩ | ⟨k, hk, heq, hlt, hmin⟩
  · have hres : sampleActionIndex probs r = probs.length - 1 := heq
    refine ⟨by omega, Or.inr ⟨?_, hres⟩⟩
    intro j hj
    simpa using hall j hj
  · have hres : sampleActionIndex probs r = k := by
      show sampleGo r (probs.length - 1) probs 0 0 = k
      omega
    refine ⟨by omega, Or.inl ⟨?_, ?_⟩⟩
    · rw [hres]
      simpa using hlt
    · intro j hj
      rw [hres] at hj
      simpa using hmin j hj

/-- Witness for claim C8: for the uniform two-entry distribution and the draw
3/4, the sampler returns a valid index. -/
theorem sampleActionIndex_spec_witness :
    ([1 / 2, 1 / 2] : List ℝ) ≠ [] ∧ (0:ℝ) ≤ 3 / 4 ∧ (3:ℝ) / 4 < 1 ∧
    sampleActionIndex [1 / 2, 1 / 2] (3 / 4) < 2 :=
  ⟨by simp, by norm_num, by norm_num,
   (sampleActionIndex_spec [1 / 2, 1 / 2] (3 / 4) (by simp) (by norm_num) (by norm_num)).1⟩

/-- Claim C7: `trainOnEpisode` applied to an empty trajectory returns
parameters equal in every field (W1, b1, W2, b2) to the input parameters,
as a no-op rather than an error. -/
theorem trainOnEpisode_empty_noop (params : NetworkParams) :
    (trainOnEpisode params []).W1 = params.W1 ∧ (trainOnEpisode params []).b1 = params.b1 ∧
    (trainOnEpisode params []).W2 = params.W2 ∧ (trainOnEpisode params []).b2 = params.b2 ∧
    trainOnEpisode params [] = params :=
  ⟨rfl, rfl, rfl, rfl, rfl⟩

/-- Claim C9: in every reachable metrics state, the terminal transition
increments the episode count, sets `last` to the just-finished episode's step
count (the running count plus the terminal step), sets `best` to the maximum
of the previous best and that count, and zeroes the running step and reward
counters; the manual-reset transition zeroes the running counters and leaves
`episodes`, `best` and `last` unchanged. -/
theorem metrics_transitions (events : List MetricsEvent) :
    ((applyMetricsEvent (runMetrics events) MetricsEvent.terminal).steps = 0 ∧
     (applyMetricsEvent (runMetrics events) MetricsEvent.terminal).totalReward = 0 ∧
     (applyMetricsEvent (runMetrics events) MetricsEvent.terminal).episodes =
       (runMetrics events).episodes + 1 ∧
     (applyMetricsEvent (runMetrics events) MetricsEvent.terminal).last =
       (runMetrics events).steps + 1 ∧
     (applyMetricsEvent (runMetrics events) MetricsEvent.terminal).best =
       max (runMetrics events).best ((runMetrics events).steps + 1)) ∧
    ((applyMetricsEvent (runMetrics events) MetricsEvent.reset).steps = 0 ∧
     (applyMetricsEvent (runMetrics events) MetricsEvent.reset).totalReward = 0 ∧
     (applyMetricsEvent (runMetrics events) MetricsEvent.reset).episodes =
       (runMetrics events).episodes ∧
     (applyMetricsEvent (runMetrics events) MetricsEvent.reset).best =
       (runMetrics events).best ∧
     (applyMetricsEvent (runMetrics events) MetricsEvent.reset).last =
       (runMetrics events).last) :=
  ⟨⟨rfl, rfl, rfl, rfl, rfl⟩, ⟨rfl, rfl, rfl, rfl, rfl⟩⟩

/-- Claim C10: for every real pole angle, the angular-acceleration denominator
used by `stepCartPole`, `length * (4/3 - massPole * cos^2 theta / totalMass)`,
is bounded below by `0.5 * (4/3 - 1/11)` and in particular strictly positive
and nonzero, so the integrator never divides by zero. -/
theorem thetaAccDenom_pos (theta : ℝ) :
    0.5 * (4 / 3 - 1 / 11) ≤ thetaAccDenom theta ∧
    0 < thetaAccDenom theta ∧ thetaAccDenom theta ≠ 0 := by
  have h1 : Real.cos theta * Real.cos theta ≤ 1 := by
    nlinarith [Real.neg_one_le_cos theta, Real.cos_le_one theta]
  have h0 : 0 ≤ Real.cos theta * Real.cos theta := mul_self_nonneg _
  have hdiv : massPole * Real.cos theta * Real.cos theta / totalMass ≤ 1 / 11 := by
    simp only [massPole, totalMass, massCart]
    rw [div_le_iff₀ (by norm_num : (0:ℝ) < 1 + 0.1)]
    nlinarith
  have hlb : 0.5 * (4 / 3 - 1 / 11) ≤ thetaAccDenom theta := by
    simp only [thetaAccDenom, length]
    nlinarith
  have hpos : 0 < thetaAccDenom theta := lt_of_lt_of_le (by norm_num) hlb
  exact ⟨hlb, hpos, ne_of_gt hpos⟩

/-- The source's shared intermediate term equals the spec's. -/
theorem temp_eq_spec (s : CartPoleState) (a : ℝ) : temp s a = specSharedTerm s a := by
  simp only [temp, specSharedTerm, poleMassLength, massPole, length, totalMass, massCart,
    forceMag]
  norm_num
  ring_nf

/-- The source's angular-acceleration denominator equals the spec's literal form. -/
theorem thetaAccDenom_eq_spec (th : ℝ) :
    thetaAccDenom th = 0.5 * (4 / 3 - 0.1 * Real.cos th ^ 2 / 1.1) := by
  simp only [thetaAccDenom, length, massPole, totalMass, massCart]
  norm_num
  ring_nf

/-- The source's angular acceleration equals the spec's. -/
theorem thetaAcc_eq_spec (s : CartPoleState) (a : ℝ) : thetaAcc s a = specThetaAcc s a := by
  rw [thetaAcc, specThetaAcc, temp_eq_spec, thetaAccDenom_eq_spec, gravity]

/-- The source's linear acceleration equals the spec's. -/
theorem xAcc_eq_spec (s : CartPoleState) (a : ℝ) : xAcc s a = specXAcc s a := by
  rw [xAcc, specXAcc, temp_eq_spec, thetaAcc_eq_spec]
  simp only [poleMassLength, massPole, length, totalMass, massCart]
  norm_num

/-- Claim C3: for every state and action, `stepCartPole` advances each state
component by the timestep 0.02 times its first derivative and each derivative
by 0.02 times the acceleration given by the spec's cart-pole equations (with
g = 9.8, cart mass 1, pole mass 0.1, half-length 0.5, force 10); from the
golden state `{x: 0, xDot: 0, theta: 0.05, thetaDot: 0}` with action +1 the
result matches the specified formulas to 6 decimal places (it is exact). -/
theorem stepCartPole_euler_spec (s : CartPoleState) (a : ℝ) :
    ((stepCartPole s a).nextState.x = s.x + 0.02 * s.xDot ∧
     (stepCartPole s a).nextState.theta = s.theta + 0.02 * s.thetaDot ∧
     (stepCartPole s a).nextState.xDot = s.xDot + 0.02 * specXAcc s a ∧
     (stepCartPole s a).nextState.thetaDot = s.thetaDot + 0.02 * specThetaAcc s a) ∧
    (|(stepCartPole sGolden 1).nextState.x - 0| ≤ 1e-6 ∧
     |(stepCartPole sGolden 1).nextState.theta - 0.05| ≤ 1e-6 ∧
     |(stepCartPole sGolden 1).nextState.xDot - 0.02 * specXAcc sGolden 1| ≤ 1e-6 ∧
     |(stepCartPole sGolden 1).nextState.thetaDot - 0.02 * specThetaAcc sGolden 1| ≤ 1e-6) := by
  have hgen : ∀ (s : CartPoleState) (a : ℝ),
      (stepCartPole s a).nextState.x = s.x + 0.02 * s.xDot ∧
      (stepCartPole s a).nextState.theta = s.theta + 0.02 * s.thetaDot ∧
      (stepCartPole s a).nextState.xDot = s.xDot + 0.02 * specXAcc s a ∧
      (stepCartPole s a).nextState.thetaDot = s.thetaDot + 0.02 * specThetaAcc s a := by
    intro s a
    refine ⟨by rw [show (stepCartPole s a).nextState.x = s.x + tau * s.xDot from rfl, tau],
      by rw [show (stepCartPole s a).nextState.theta = s.theta + tau * s.thetaDot from rfl, tau],
      ?_, ?_⟩
    · rw [show (stepCartPole s a).nextState.xDot = s.xDot + tau * xAcc s a from rfl, tau,
        xAcc_eq_spec]
    · rw [show (stepCartPole s a).nextState.thetaDot = s.thetaDot + tau * thetaAcc s a from rfl,
        tau, thetaAcc_eq_spec]
  refine ⟨hgen s a, ?_, ?_, ?_, ?_⟩
  · rw [(hgen sGolden 1).1]
    norm_num [sGolden]
  · rw [(hgen sGolden 1).2.1]
    norm_num [sGolden]
  · rw [(hgen sGolden 1).2.2.1]
    norm_num [sGolden]
  · rw [(hgen sGolden 1).2.2.2]
    norm_num [sGolden]

/-- Claim C4: the terminal flag of `stepCartPole` holds exactly when the new
cart position magnitude exceeds 2.4 or the new pole angle magnitude exceeds
12 degrees in radians; the comparison is strict, so a pole angle exactly at
the 12-degree limit is non-terminal while any angle beyond it is terminal
(monotonic transition across the boundary). -/
theorem stepCartPole_terminal_boundary (s : CartPoleState) (a : ℝ) :
    ((stepCartPole s a).done ↔
      2.4 < |s.x + tau * s.xDot| ∨ 12 * Real.pi / 180 < |s.theta + tau * s.thetaDot|) ∧
    ¬ (stepCartPole ⟨0, 0, angleLimit, 0⟩ a).done ∧
    (stepCartPole ⟨0, 0, angleLimit + 0.001, 0⟩ a).done := by
  have hA : 0 ≤ angleLimit := by
    rw [angleLimit]
    positivity
  refine ⟨Iff.rfl, ?_, ?_⟩
  · show ¬ (trackLimit < |(0:ℝ) + tau * 0| ∨ angleLimit < |angleLimit + tau * 0|)
    simp [trackLimit, tau, abs_of_nonneg hA]
    norm_num
  · show trackLimit < |(0:ℝ) + tau * 0| ∨ angleLimit < |angleLimit + 0.001 + tau * 0|
    right
    rw [mul_zero, add_zero, abs_of_nonneg (by linarith)]
    linarith

/-- Reading any index of a constant list with that constant as default. -/
theorem getD_replicate_self {α : Type} (n i : ℕ) (a : α) :
    (List.replicate n a).getD i a = a := by
  induction n generalizing i with
  | zero => simp
  | succ n ih =>
    cases i with
    | zero => rfl
    | succ i =>
      rw [List.replicate_succ, List.getD_cons_succ]
      exact ih i

/-- Hidden activations of the zero network on the zero observation. -/
theorem hiddenLayer_pZero : hiddenLayer pZero obsZero = [0, 0, 0, 0, 0, 0, 0, 0] := by
  rw [hiddenLayer, show List.range hiddenSize = [0, 1, 2, 3, 4, 5, 6, 7] from rfl]
  simp [pZero, obsZero, inputSize, getD_replicate_self, Finset.sum_range_succ, Real.tanh_zero]

/-- Logits of the zero network are zero for any hidden vector. -/
theorem logitsOf_pZero (H : List ℝ) : logitsOf pZero H = [0, 0] := by
  rw [logitsOf_pair]
  simp [pZero, hiddenSize, getD_replicate_self, Finset.sum_range_succ]

/-- Softmax of two equal logits is the uniform distribution. -/
theorem softmaxOf_zero_pair : softmaxOf [(0:ℝ), 0] = [1 / 2, 1 / 2] := by
  rw [softmaxOf_pair]
  norm_num [Real.exp_zero]

/-- Output error signal of the constructed one-step trajectory. -/
theorem delta2Of_stepZero :
    delta2Of stepZero (stepZero.reward + discountFactor * 0) = [1 / 2, -(1 / 2)] := by
  rw [delta2Of, show List.range outputSize = [0, 1] from rfl]
  norm_num [stepZero, discountFactor]

/-- Hidden error signal vanishes for the zero network. -/
theorem delta1Of_pZero (st : PolicyStep) (d2 : List ℝ) :
    delta1Of pZero st d2 = [0, 0, 0, 0, 0, 0, 0, 0] := by
  rw [delta1Of, show List.range hiddenSize = [0, 1, 2, 3, 4, 5, 6, 7] from rfl]
  simp [pZero, hiddenSize, outputSize, getD_replicate_self, Finset.sum_range_succ]

/-- Accumulated output-bias gradient of the constructed trajectory. -/
theorem accumGrads_gradb2 :
    (accumGrads pZero [stepZero]).gradb2 = [1 / 2, -(1 / 2)] := by
  rw [show (accumGrads pZero [stepZero]).gradb2 =
      addV zeroGrads.gradb2 (delta2Of stepZero (stepZero.reward + discountFactor * 0)) from rfl,
    delta2Of_stepZero]
  norm_num [zeroGrads, addV, outputSize, List.replicate]

/-- Accumulated hidden-bias gradient of the constructed trajectory. -/
theorem accumGrads_gradb1 :
    (accumGrads pZero [stepZero]).gradb1 = [0, 0, 0, 0, 0, 0, 0, 0] := by
  rw [show (accumGrads pZero [stepZero]).gradb1 =
      addV zeroGrads.gradb1 (delta1Of pZero stepZero
        (delta2Of stepZero (stepZero.reward + discountFactor * 0))) from rfl,
    delta1Of_pZero]
  norm_num [zeroGrads, addV, hiddenSize, List.replicate]

/-- Hidden biases after training on the constructed trajectory. -/
theorem trained_b1 :
    (trainOnEpisode pZero [stepZero]).b1 = [0, 0, 0, 0, 0, 0, 0, 0] := by
  rw [show (trainOnEpisode pZero [stepZero]).b1 = (List.range pZero.b1.length).map
      (fun i => pZero.b1.getD i 0 +
        learningRate / ((max 1 (List.length [stepZero]) : ℕ) : ℝ) *
        (accumGrads pZero [stepZero]).gradb1.getD i 0) from rfl,
    accumGrads_gradb1, show List.range pZero.b1.length = [0, 1, 2, 3, 4, 5, 6, 7] from rfl]
  norm_num [pZero, getD_replicate_self]

/-- Output biases after training on the constructed trajectory: the chosen
action's bias rises by `0.02 * (1/2)`, the other falls symmetrically. -/
theorem trained_b2 :
    (trainOnEpisode pZero [stepZero]).b2 = [0.01, -0.01] := by
  rw [show (trainOnEpisode pZero [stepZero]).b2 = (List.range pZero.b2.length).map
      (fun i => pZero.b2.getD i 0 +
        learningRate / ((max 1 (List.length [stepZero]) : ℕ) : ℝ) *
        (accumGrads pZero [stepZero]).gradb2.getD i 0) from rfl,
    accumGrads_gradb2, show List.range pZero.b2.length = [0, 1] from rfl]
  norm_num [pZero, getD_replicate_self, learningRate]

/-- Hidden activations of the updated network on the zero observation. -/
theorem hiddenLayer_trained :
    hiddenLayer (trainOnEpisode pZero [stepZero]) obsZero = [0, 0, 0, 0, 0, 0, 0, 0] := by
  rw [hiddenLayer, trained_b1, show List.range hiddenSize = [0, 1, 2, 3, 4, 5, 6, 7] from rfl]
  simp [obsZero, inputSize, Finset.sum_range_succ, Real.tanh_zero]

/-- Logits of the updated network on the zero observation. -/
theorem logitsOf_trained :
    logitsOf (trainOnEpisode pZero [stepZero])
      (hiddenLayer (trainOnEpisode pZero [stepZero]) obsZero) = [0.01, -0.01] := by
  rw [logitsOf_pair, hiddenLayer_trained, trained_b2]
  simp [hiddenSize, Finset.sum_range_succ]

/-- Claim C6: `trainOnEpisode` is gradient ascent — for every parameter set
and non-empty trajectory the new parameters equal the old parameters plus
`learningRate / max(1, length)` times the accumulated gradient, componentwise
in all four fields; and for the spec's constructed one-step trajectory
(`stepZero`: the zero observation with the hidden activations and
probabilities actually produced by the zero parameter set `pZero`, chosen
action 0, reward 1) the probability `forwardNetwork` assigns to the chosen
action on the same observation strictly increases after the update. -/
theorem trainOnEpisode_gradient_ascent :
    (∀ (params : NetworkParams) (traj : List PolicyStep), traj ≠ [] →
      (∀ i < params.W1.length, (trainOnEpisode params traj).W1.getD i 0 =
        params.W1.getD i 0 + learningRate / ((max 1 traj.length : ℕ) : ℝ) *
          (accumGrads params traj).gradW1.getD i 0) ∧
      (∀ i < params.b1.length, (trainOnEpisode params traj).b1.getD i 0 =
        params.b1.getD i 0 + learningRate / ((max 1 traj.length : ℕ) : ℝ) *
          (accumGrads params traj).gradb1.getD i 0) ∧
      (∀ i < params.W2.length, (trainOnEpisode params traj).W2.getD i 0 =
        params.W2.getD i 0 + learningRate / ((max 1 traj.length : ℕ) : ℝ) *
          (accumGrads params traj).gradW2.getD i 0) ∧
      (∀ i < params.b2.length, (trainOnEpisode params traj).b2.getD i 0 =
        params.b2.getD i 0 + learningRate / ((max 1 traj.length : ℕ) : ℝ) *
          (accumGrads params traj).gradb2.getD i 0)) ∧
    (forwardNetwork pZero obsZero).hidden = stepZero.hidden ∧
    (forwardNetwork pZero obsZero).probs = stepZero.probs ∧
    stepZero.actionIndex = 0 ∧ stepZero.reward = 1 ∧
    (forwardNetwork pZero obsZero).probs.getD 0 0 <
      (forwardNetwork (trainOnEpisode pZero [stepZero]) obsZero).probs.getD 0 0 := by
  refine ⟨?_, ?_, ?_, rfl, rfl, ?_⟩
  · intro params traj hne
    obtain ⟨s, ts, rfl⟩ := List.exists_cons_of_ne_nil hne
    refine ⟨fun i hi => ?_, fun i hi => ?_, fun i hi => ?_, fun i hi => ?_⟩
    · rw [show (trainOnEpisode params (s :: ts)).W1 = (List.range params.W1.length).map
        (fun i => params.W1.getD i 0 +
          learningRate / ((max 1 (List.length (s :: ts)) : ℕ) : ℝ) *
          (accumGrads params (s :: ts)).gradW1.getD i 0) from rfl, getD_range_map _ _ hi]
    · rw [show (trainOnEpisode params (s :: ts)).b1 = (List.range params.b1.length).map
        (fun i => params.b1.getD i 0 +
          learningRate / ((max 1 (List.length (s :: ts)) : ℕ) : ℝ) *
          (accumGrads params (s :: ts)).gradb1.getD i 0) from rfl, getD_range_map _ _ hi]
    · rw [show (trainOnEpisode params (s :: ts)).W2 = (List.range params.W2.length).map
        (fun i => params.W2.getD i 0 +
          learningRate / ((max 1 (List.length (s :: ts)) : ℕ) : ℝ) *
          (accumGrads params (s :: ts)).gradW2.getD i 0) from rfl, getD_range_map _ _ hi]
    · rw [show (trainOnEpisode params (s :: ts)).b2 = (List.range params.b2.length).map
        (fun i => params.b2.getD i 0 +
          learningRate / ((max 1 (List.length (s :: ts)) : ℕ) : ℝ) *
          (accumGrads params (s :: ts)).gradb2.getD i 0) from rfl, getD_range_map _ _ hi]
  · rw [show (forwardNetwork pZero obsZero).hidden = hiddenLayer pZero obsZero from rfl,
      hiddenLayer_pZero]
    rfl
  · rw [show (forwardNetwork pZero obsZero).probs =
      softmaxOf (logitsOf pZero (hiddenLayer pZero obsZero)) from rfl,
      logitsOf_pZero, softmaxOf_zero_pair]
    rfl
  · rw [show (forwardNetwork pZero obsZero).probs =
      softmaxOf (logitsOf pZero (hiddenLayer pZero obsZero)) from rfl,
      logitsOf_pZero, softmaxOf_zero_pair,
      show (forwardNetwork (trainOnEpisode pZero [stepZero]) obsZero).probs =
        softmaxOf (logitsOf (trainOnEpisode pZero [stepZero])
          (hiddenLayer (trainOnEpisode pZero [stepZero]) obsZero)) from rfl,
      logitsOf_trained, softmaxOf_pair]
    have h1 : (0.01 : ℝ) - max 0.01 (-0.01) = 0 := by norm_num
    have h2 : (-0.01 : ℝ) - max 0.01 (-0.01) = -0.02 := by norm_num
    rw [h1, h2, Real.exp_zero]
    simp only [List.getD_cons_zero]
    have hlt : Real.exp (-0.02) < 1 := by
      rw [show (1:ℝ) = Real.exp 0 from Real.exp_zero.symm]
      exact Real.exp_lt_exp.mpr (by norm_num)
    have hpos : 0 < Real.exp (-0.02) := Real.exp_pos _
    rw [lt_div_iff₀ (by positivity)]
    linarith

/-- Witness for claim C6: the ascent identity applied at the constructed
one-step trajectory and the first output bias. -/
theorem trainOnEpisode_gradient_ascent_witness :
    ([stepZero] : List PolicyStep) ≠ [] ∧ 0 < pZero.b2.length ∧
    (trainOnEpisode pZero [stepZero]).b2.getD 0 0 =
      pZero.b2.getD 0 0 + learningRate / ((max 1 (List.length [stepZero]) : ℕ) : ℝ) *
        (accumGrads pZero [stepZero]).gradb2.getD 0 0 :=
  ⟨by simp, by simp [pZero],
   (trainOnEpisode_gradient_ascent.1 pZero [stepZero] (by simp)).2.2.2 0 (by simp [pZero])⟩

/-- Claim C1, counterexample: for the zero parameter set and a one-step
trajectory whose reward is NaN, the accumulated output-bias gradient contains
a non-finite component, yet `trainOnEpisode` does not return the input
parameters unchanged — the update is applied, not discarded. -/
theorem trainOnEpisodeFV_nan_update_not_discarded :
    (∃ g ∈ (accumGradsFV pZeroFV [stepNaN]).gradb2, g.isFinite = false) ∧
    trainOnEpisodeFV pZeroFV [stepNaN] ≠ pZeroFV := by decide

/-- Claim C1 as amended: `trainOnEpisode` contains no finiteness guard; it
always applies the scaled-gradient update, so a non-finite accumulated
gradient component makes the corresponding resulting parameter non-finite
instead of the episode's update being discarded. -/
theorem trainOnEpisodeFV_no_finiteness_guard (params : NetworkParamsFV)
    (traj : List PolicyStepFV) (hne : traj ≠ []) :
    (∀ i < params.W1.length,
      ((accumGradsFV params traj).gradW1.getD i FV.nan).isFinite = false →
      ((trainOnEpisodeFV params traj).W1.getD i FV.nan).isFinite = false) ∧
    (∀ i < params.b1.length,
      ((accumGradsFV params traj).gradb1.getD i FV.nan).isFinite = false →
      ((trainOnEpisodeFV params traj).b1.getD i FV.nan).isFinite = false) ∧
    (∀ i < params.W2.length,
      ((accumGradsFV params traj).gradW2.getD i FV.nan).isFinite = false →
      ((trainOnEpisodeFV params traj).W2.getD i FV.nan).isFinite = false) ∧
    (∀ i < params.b2.length,
      ((accumGradsFV params traj).gradb2.getD i FV.nan).isFinite = false →
      ((trainOnEpisodeFV params traj).b2.getD i FV.nan).isFinite = false) := by
  obtain ⟨s, ts, rfl⟩ := List.exists_cons_of_ne_nil hne
  refine ⟨fun i hi hg => ?_, fun i hi hg => ?_, fun i hi hg => ?_, fun i hi hg => ?_⟩ <;>
    · simp only [trainOnEpisodeFV]
      rw [getD_range_map _ _ hi, (FV.not_isFinite_iff _).mp hg, FV.mul_nan, FV.add_nan]
      rfl

/-- Witness for the amended claim C1 at the concrete NaN trajectory: the
hypotheses are satisfiable and the resulting first output bias is non-finite. -/
theorem trainOnEpisodeFV_no_finiteness_guard_witness :
    ([stepNaN] ≠ ([] : List PolicyStepFV)) ∧ 0 < pZeroFV.b2.length ∧
    ((accumGradsFV pZeroFV [stepNaN]).gradb2.getD 0 FV.nan).isFinite = false ∧
    ((trainOnEpisodeFV pZeroFV [stepNaN]).b2.getD 0 FV.nan).isFinite = false :=
  ⟨by decide, by decide, by decide,
   (trainOnEpisodeFV_no_finiteness_guard pZeroFV [stepNaN] (by decide)).2.2.2 0
     (by decide) (by decide)⟩

end CartPole
